import Mathlib

/-!
Verification development for the job-scraper repository
(src/swe/scraper.py, src/swe/models.py, src/swe/db.py).

The Python code is shallowly embedded: dynamically-typed Python values
become the inductive type `PyVal`; pure functions become Lean functions;
the in-memory store becomes an insertion-ordered association list with
Python-dict insertion semantics; an exception that escapes a function is
an `Except` error value.

Scope notes for the embedding (stated once here):
* String operations (`strip`, `lower`, `\s` in `strptime` regexes) are
  modelled on their ASCII behaviour; every string appearing in the
  repository's data formats is ASCII.
* Python floats are modelled only at integral values (`PyVal.float n`
  is the float of integral value `n`); the code under scrutiny only
  compares, divides by 1000 and floors them, and no claim depends on a
  non-integral float.
* `datetime.fromtimestamp` uses the process-local timezone; it is
  modelled as UTC, which is the configuration of the reference
  deployment; no claim depends on the specific civil date produced for
  a concrete timestamp.
* Record keys (`jobId`) are modelled as strings; the claims quantify
  over string and empty keys only.
-/

set_option maxRecDepth 100000

/-- Dynamically-typed Python value (the shapes the repository handles). -/
inductive PyVal where
  | none
  | bool (b : Bool)
  | int (n : Int)
  | float (n : Int)
  | str (s : String)
  | list (elems : List PyVal)
  | obj (fields : List (String × PyVal))

/-- Python truthiness (`bool(v)`): `None`, `False`, `0`, `0.0`, `""` and
empty containers are falsy. -/
def PyVal.truthy : PyVal → Bool
  | .none => false
  | .bool b => b
  | .int n => n != 0
  | .float n => n != 0
  | .str s => s != ""
  | .list l => !l.isEmpty
  | .obj l => !l.isEmpty

/-- ASCII whitespace stripped by Python `str.strip()`. -/
def isPySpace (c : Char) : Bool :=
  c = ' ' || c = '\t' || c = '\n' || c = '\r' || c = Char.ofNat 11 || c = Char.ofNat 12

/-- `str.strip()` on a character list. -/
def pyStripL (l : List Char) : List Char :=
  ((l.dropWhile isPySpace).reverse.dropWhile isPySpace).reverse

/-- `str.strip()`. -/
def pyStrip (s : String) : String :=
  (pyStripL s.toList).asString

/-- `str.lower()` (ASCII). -/
def pyLower (s : String) : String :=
  (s.toList.map Char.toLower).asString

/-- `str.split(sep)` for a one-character separator (Python semantics:
`"".split(sep) = [""]`, empty segments kept). -/
def splitChar (sep : Char) : List Char → List (List Char)
  | [] => [[]]
  | c :: rest =>
    let r := splitChar sep rest
    if c = sep then [] :: r
    else
      match r with
      | [] => [[c]]
      | h :: t => (c :: h) :: t

/-- Comma-join used by the container `repr` below. -/
def commaJoin : List String → String
  | [] => ""
  | [s] => s
  | s :: rest => s ++ ", " ++ commaJoin rest

/-- Python `repr` of a value, fuel-indexed so the nested recursion is
structural; called with `sizeOf v` fuel, which always suffices. -/
def pyReprFuel : Nat → PyVal → String
  | _, .none => "None"
  | _, .bool b => if b then "True" else "False"
  | _, .int n => toString n
  | _, .float n => toString n ++ ".0"
  | _, .str s => "\x27" ++ s ++ "\x27"
  | 0, _ => ""
  | fuel + 1, .list l => "[" ++ commaJoin (l.map (pyReprFuel fuel)) ++ "]"
  | fuel + 1, .obj l =>
    "\x7b" ++ commaJoin (l.map (fun p => "\x27" ++ p.1 ++ "\x27: " ++ pyReprFuel fuel p.2)) ++ "\x7d"

mutual

/-- Structural size of a `PyVal`, an upper bound for the `repr` fuel. -/
def pySize : PyVal → Nat
  | .list l => 1 + pySizeList l
  | .obj l => 1 + pySizeFields l
  | _ => 1

/-- Size of a list of values. -/
def pySizeList : List PyVal → Nat
  | [] => 0
  | v :: rest => pySize v + pySizeList rest

/-- Size of a field list. -/
def pySizeFields : List (String × PyVal) → Nat
  | [] => 0
  | p :: rest => pySize p.2 + pySizeFields rest

end

/-- Python `str(v)`: identity on strings, `repr`-like elsewhere. -/
def pyStr (v : PyVal) : String :=
  match v with
  | .str s => s
  | .none => "None"
  | .bool b => if b then "True" else "False"
  | .int n => toString n
  | .float n => toString n ++ ".0"
  | .list l => pyReprFuel (pySize (PyVal.list l)) (.list l)
  | .obj l => pyReprFuel (pySize (PyVal.obj l)) (.obj l)

/-- `dict.get(k, default)` (first binding wins; Python dicts have unique
keys). -/
def dictGet (fields : List (String × PyVal)) (k : String) (dflt : PyVal) : PyVal :=
  match fields.find? (fun p => p.1 == k) with
  | some p => p.2
  | Option.none => dflt

/-- `x or ''`: replaces a falsy value by the empty string. -/
def orEmpty (v : PyVal) : PyVal :=
  if v.truthy then v else .str ""

/-- The four US-alias country spellings recognised by the code
(scraper.py line 186 and line 252). -/
def usAliases : List String := ["usa", "us", "united states", "united states of america"]

/-- scraper.py 173-192, `standardize_location_string`: collapse a
three-part "City, State, Country" string; anything else passes through. -/
def standardize_location_string (s : String) : String :=
  if s = "" || !(s.toList.contains ',') then s
  else
    let parts := (splitChar ',' s.toList).map (fun l => (pyStripL l).asString)
    match parts with
    | [city, state, country] =>
      if pyLower country ∈ usAliases then city ++ ", " ++ state
      else city ++ ", " ++ country
    | _ => s

/-- Result of `normalize_location`: the Python function returns either a
plain string or a dict with `location` and `workType` keys. -/
inductive LocResult where
  | plain (s : String)
  | withWork (location : String) (workType : String)
deriving DecidableEq

/-- Keyword set for the Remote arrangement (scraper.py line 211). -/
def remoteKws : List String := ["remote"]

/-- Keyword set for the On-site arrangement (scraper.py line 213). -/
def onsiteKws : List String := ["on-site", "onsite", "on site"]

/-- Keyword set for the Hybrid arrangement (scraper.py line 215). -/
def hybridKws : List String := ["hybrid"]

/-- Keyword set for the unknown-location sentinels (scraper.py line 217). -/
def unknownKws : List String := ["unknown", "n/a", "na", "not available", "not specified"]

/-- Sub-field extraction in the dict branch of `normalize_location`
(scraper.py 227-234): `str(location.get(k, '') or '').strip()`. -/
def locField (fields : List (String × PyVal)) (k : String) : String :=
  pyStrip (pyStr (orEmpty (dictGet fields k (.str ""))))

/-- scraper.py 195-267, `normalize_location`. -/
def normalize_location (location : PyVal) : LocResult :=
  if !location.truthy then .plain "Unknown"
  else
    match location with
    | .str s =>
      let c := pyStrip s
      if c = "" then .plain "Unknown"
      else if pyLower c ∈ remoteKws then .withWork "Unknown" "Remote"
      else if pyLower c ∈ onsiteKws then .withWork "Unknown" "On-site"
      else if pyLower c ∈ hybridKws then .withWork "Unknown" "Hybrid"
      else if pyLower c ∈ unknownKws then .plain "Unknown"
      else .plain (standardize_location_string c)
    | .obj fields =>
      let city := locField fields "city"
      let state := locField fields "state"
      let country := locField fields "country"
      if city ≠ "" && pyLower city ∈ remoteKws then .withWork "Unknown" "Remote"
      else if city ≠ "" && pyLower city ∈ onsiteKws then .withWork "Unknown" "On-site"
      else if city ≠ "" && pyLower city ∈ hybridKws then .withWork "Unknown" "Hybrid"
      else if city ≠ "" && pyLower city ∈ unknownKws then .plain "Unknown"
      else if city ≠ "" && state ≠ "" && country ≠ "" then
        if pyLower country ∈ usAliases then .plain (city ++ ", " ++ state)
        else .plain (city ++ ", " ++ country)
      else if city ≠ "" && state ≠ "" then .plain (city ++ ", " ++ state)
      else if city ≠ "" && country ≠ "" then .plain (city ++ ", " ++ country)
      else if city ≠ "" then .plain city
      else if state ≠ "" then .plain state
      else if country ≠ "" then .plain country
      else .plain "Unknown"
    | _ => .plain "Unknown"

/-- The caller-side unpacking in `normalize_job_data` (scraper.py
149-155): a dict result carries the work type, a plain string leaves the
work type at "Unknown". -/
def locWorkPair (v : PyVal) : String × String :=
  match normalize_location v with
  | .withWork l w => (l, w)
  | .plain l => (l, "Unknown")

/-! ## strptime core

CPython's `_strptime` compiles each format into a regex matched
case-insensitively against the whole input.  The directive fragments
(dumped from `_strptime.TimeRE()`) are:

* `%Y` : four digits
* `%m` : `1[0-2]|0[1-9]|[1-9]`
* `%d` : `3[0-1]|[1-2]\d|0[1-9]|[1-9]| [1-9]`
* `%H` : `2[0-3]|[0-1]\d|\d`
* `%M` : `[0-5]\d|\d`
* `%S` : `6[0-1]|[0-5]\d|\d`
* `%B`/`%b`/`%a` : name alternations, longest first
* `%z` : `[+-]\d\d:?[0-5]\d(:?[0-5]\d(\.\d{1,6})?)?|Z` (`Z` case-sensitive)
* a whitespace run in the format : `\s+`

The parsers below enumerate match candidates in the regex's
leftmost-first preference order; a parse succeeds when some candidate
path consumes the entire input, which reproduces the backtracking
behaviour plus `_strptime`'s unconverted-data check. -/

/-- Nondeterministic prefix matcher: candidates in preference order. -/
def P (α : Type) : Type := List Char → List (α × List Char)

/-- Match one character satisfying a predicate. -/
def pChar (pred : Char → Bool) : P Char := fun l =>
  match l with
  | c :: rest => if pred c then [(c, rest)] else []
  | [] => []

/-- Ordered alternation. -/
def pAlts (ps : List (P α)) : P α := fun l => (ps.map (fun p => p l)).flatten

/-- Map over a matcher's value. -/
def pMap (f : α → β) (p : P α) : P β := fun l => (p l).map (fun r => (f r.1, r.2))

/-- Sequencing (all combinations, first parser's preference dominating). -/
def pThen (p : P α) (q : P β) : P (α × β) := fun l =>
  (p l).flatMap (fun r => (q r.2).map (fun r2 => ((r.1, r2.1), r2.2)))

/-- Literal character. -/
def pLit (c : Char) : P Unit := pMap (fun _ => ()) (pChar (fun x => x = c))

/-- `\s+` with greedy-first backtracking (ASCII whitespace). -/
def pWs : P Unit := fun l =>
  let m := (l.takeWhile isPySpace).length
  (List.range m).map (fun j => ((), l.drop (m - j)))

/-- Numeric value of a decimal digit. -/
def digitVal (c : Char) : Nat := c.toNat - 48

/-- A digit in an inclusive range. -/
def pDigitIn (lo hi : Char) : P Nat := pMap digitVal (pChar (fun c => lo ≤ c && c ≤ hi))

/-- Two digits, the first in a range, value `10*a + b`. -/
def pTwo (lo hi : Char) : P Nat :=
  pMap (fun r => 10 * r.1 + r.2) (pThen (pDigitIn lo hi) (pDigitIn '0' '9'))

/-- A fixed leading character followed by a digit in a range. -/
def pLeadDigit (lead : Char) (lo hi : Char) (base : Nat) : P Nat :=
  pMap (fun r => base + r.2) (pThen (pLit lead) (pDigitIn lo hi))

/-- `%Y`: exactly four digits. -/
def pY : P Nat :=
  pMap (fun r => 1000 * r.1.1.1 + 100 * r.1.1.2 + 10 * r.1.2 + r.2)
    (pThen (pThen (pThen (pDigitIn '0' '9') (pDigitIn '0' '9')) (pDigitIn '0' '9'))
      (pDigitIn '0' '9'))

/-- `%m`: `1[0-2]|0[1-9]|[1-9]`. -/
def pm : P Nat := pAlts [pLeadDigit '1' '0' '2' 10, pLeadDigit '0' '1' '9' 0, pDigitIn '1' '9']

/-- `%d`: `3[0-1]|[1-2]\d|0[1-9]|[1-9]| [1-9]`. -/
def pd : P Nat :=
  pAlts [pLeadDigit '3' '0' '1' 30, pTwo '1' '2', pLeadDigit '0' '1' '9' 0,
    pDigitIn '1' '9', pLeadDigit ' ' '1' '9' 0]

/-- `%H`: `2[0-3]|[0-1]\d|\d`. -/
def pH : P Nat := pAlts [pLeadDigit '2' '0' '3' 20, pTwo '0' '1', pDigitIn '0' '9']

/-- `%M`: `[0-5]\d|\d`. -/
def pM : P Nat := pAlts [pTwo '0' '5', pDigitIn '0' '9']

/-- `%S`: `6[0-1]|[0-5]\d|\d`. -/
def pS : P Nat := pAlts [pLeadDigit '6' '0' '1' 60, pTwo '0' '5', pDigitIn '0' '9']

/-- Case-insensitive literal name with an associated value. -/
def pName (name : String) (v : Nat) : P Nat := fun l =>
  let n := name.length
  if (l.take n).map Char.toLower = name.toList then [(v, l.drop n)] else []

/-- `%B`: full month names in the regex's longest-first order. -/
def pB : P Nat :=
  pAlts [pName "september" 9, pName "february" 2, pName "november" 11, pName "december" 12,
    pName "january" 1, pName "october" 10, pName "august" 8, pName "march" 3,
    pName "april" 4, pName "june" 6, pName "july" 7, pName "may" 5]

/-- `%b`: abbreviated month names. -/
def pb : P Nat :=
  pAlts [pName "jan" 1, pName "feb" 2, pName "mar" 3, pName "apr" 4, pName "may" 5,
    pName "jun" 6, pName "jul" 7, pName "aug" 8, pName "sep" 9, pName "oct" 10,
    pName "nov" 11, pName "dec" 12]

/-- `%a`: abbreviated weekday names (the parsed weekday is not checked
against the date, as in `_strptime`). -/
def pa : P Nat :=
  pAlts [pName "mon" 0, pName "tue" 1, pName "wed" 2, pName "thu" 3, pName "fri" 4,
    pName "sat" 5, pName "sun" 6]

/-- Optional piece: with-it candidates first (greedy), then without. -/
def pOpt (p : P Unit) : P Unit := fun l => p l ++ [((), l)]

/-- One to `k` decimal digits, longest candidate first (`\d{1,k}`). -/
def pDigits1To (k : Nat) : P Unit := fun l =>
  let m := min ((l.takeWhile (fun c => '0' ≤ c && c ≤ '9')).length) k
  (List.range m).map (fun j => ((), l.drop (m - j)))

/-- `\.\d{1,6}` fractional seconds. -/
def pFrac : P Unit := pMap (fun _ => ()) (pThen (pLit '.') (pDigits1To 6))

/-- Optional `(:?[0-5]\d(\.\d{1,6})?)?` seconds tail of `%z`. -/
def pzSeconds : P Unit :=
  pOpt (pMap (fun _ => ())
    (pThen (pThen (pOpt (pLit ':')) (pThen (pDigitIn '0' '5') (pDigitIn '0' '9')))
      (pOpt pFrac)))

/-- Sign and two hour digits of `%z`, valued at the absolute hours. -/
def pzHours : P Nat :=
  pMap (fun r => 10 * r.1.2 + r.2)
    (pThen (pThen (pChar (fun c => c = '+' || c = '-')) (pDigitIn '0' '9'))
      (pDigitIn '0' '9'))

/-- `%z`: `[+-]\d\d:?[0-5]\d(:?[0-5]\d(\.\d{1,6})?)?|Z`, returning the
absolute offset hours (all that matters for validity: `timezone()`
rejects offsets of 24 hours or more with a `ValueError`). -/
def pz : P Nat :=
  pAlts [
    pMap (fun r => r.1.1.1)
      (pThen
        (pThen (pThen pzHours (pOpt (pLit ':')))
          (pThen (pDigitIn '0' '5') (pDigitIn '0' '9')))
        pzSeconds),
    pMap (fun _ => 0) (pChar (fun c => c = 'Z'))]

/-- Run a matcher requiring the whole input to be consumed; first
successful candidate wins (regex backtracking order). -/
def runFull (p : P α) (l : List Char) : Option α :=
  ((p l).find? (fun r => r.2.isEmpty)).map (fun r => r.1)

/-- Gregorian leap year (`calendar.isleap`). -/
def isLeap (y : Nat) : Bool := (y % 4 == 0 && y % 100 != 0) || y % 400 == 0

/-- Length of a month given the leap-year flag; `m` is 1-based and
assumed in `[1, 12]`. -/
def daysInMonthL (leap : Bool) (m : Nat) : Nat :=
  if m = 2 then (if leap then 29 else 28)
  else if m = 4 || m = 6 || m = 9 || m = 11 then 30
  else 31

/-- Length of a month of a year. -/
def daysInMonth (y m : Nat) : Nat := daysInMonthL (isLeap y) m

/-- The `datetime(year, month, day)` constructor check: year in
`[1, 9999]`, month from the regex is already in `[1, 12]`, day must fit
the month. -/
def validYMD (y m d : Nat) : Bool :=
  1 ≤ y && y ≤ 9999 && 1 ≤ m && m ≤ 12 && 1 ≤ d && d ≤ daysInMonth y m

/-- `strptime(s, "%Y-%m-%d")` followed by the `datetime` constructor:
returns the parsed (year, month, day) on success.  Note `%m`/`%d`
accept single digits, so `"2025-1-5"` parses. -/
def strptime_Ymd (s : String) : Option (Nat × Nat × Nat) :=
  match runFull (pThen (pThen (pThen (pThen pY (pLit '-')) pm) (pLit '-')) pd) s.toList with
  | some r =>
    let y := r.1.1.1.1
    let m := r.1.1.2
    let d := r.2
    if validYMD y m d then some (y, m, d) else Option.none
  | Option.none => Option.none

/-- `strftime("%Y-%m-%d")` month/day padding. -/
def pad2 (n : Nat) : String := if n < 10 then "0" ++ toString n else toString n

/-- `strftime("%Y-%m-%d")` (glibc: the year is not zero-padded, so year
999 prints as "999"). -/
def formatDate (y m d : Nat) : String := toString y ++ "-" ++ pad2 m ++ "-" ++ pad2 d

example : strptime_Ymd "2025-01-05" = some (2025, 1, 5) := by decide
example : strptime_Ymd "2025-1-5" = some (2025, 1, 5) := by decide
example : strptime_Ymd "999-01-01" = Option.none := by decide
example : strptime_Ymd "0999-01-01" = some (999, 1, 1) := by decide
example : strptime_Ymd "2025-012-5" = Option.none := by decide
example : strptime_Ymd "2025-00-05" = Option.none := by decide
example : strptime_Ymd "2025-13-01" = Option.none := by decide
example : strptime_Ymd "2025-02-29" = Option.none := by decide
example : strptime_Ymd "2024-02-29" = some (2024, 2, 29) := by decide
example : strptime_Ymd "0000-01-01" = Option.none := by decide

/-! ## Record model (models.py) -/

/-- models.py 6-17, `JobModel` after `__post_init__`. -/
structure JobModel where
  jobId : String
  title : String
  company : String
  location : String
  workType : String
  postedDate : String
  applicants : Int
  description : Option String
deriving DecidableEq

/-- models.py 22, the accepted work types. -/
def validWorkTypes : List String := ["Remote", "On-site", "Hybrid", "Unknown"]

/-- models.py 27-28: `applicants` is reset to 0 unless it is a
non-negative `int`; Python `bool` is a subclass of `int`, so `True`
stays (as 1) and `False` stays (as 0); floats are not `int` and reset. -/
def validateApplicants : PyVal → Int
  | .int n => if n < 0 then 0 else n
  | .bool b => if b then 1 else 0
  | _ => 0

/-- models.py 19-35, `JobModel.__post_init__`: construction with
validation of `workType`, `applicants` and `postedDate`. -/
def mkJobModel (jobId title company location workType postedDate : String)
    (applicants : PyVal) (description : Option String) : JobModel :=
  { jobId := jobId, title := title, company := company, location := location,
    workType := if workType ∈ validWorkTypes then workType else "Unknown",
    postedDate :=
      if postedDate = "Unknown" then postedDate
      else if (strptime_Ymd postedDate).isSome then postedDate else "Unknown",
    applicants := validateApplicants applicants,
    description := description }

/-! ## Store (db.py) -/

/-- db.py 14: `self.jobs`, an insertion-ordered dict from `jobId` to
`JobModel`, as an association list with unique keys. -/
abbrev Store := List (String × JobModel)

/-- `jobId in self.jobs`. -/
def containsKey (db : Store) (k : String) : Bool := db.any (fun p => p.1 == k)

/-- `self.jobs[k] = v`: replace in place if the key is resident,
otherwise append (Python dict insertion order). -/
def insertPy : Store → String → JobModel → Store
  | [], k, v => [(k, v)]
  | p :: rest, k, v => if p.1 = k then (k, v) :: rest else p :: insertPy rest k v

/-- db.py 36-38, `get_job`. -/
def get_job (db : Store) (k : String) : Option JobModel :=
  (db.find? (fun p => p.1 == k)).map (fun p => p.2)

/-- db.py 16-34, `save_jobs`: upsert by `jobId`, skipping falsy ids,
returning the number of new inserts. -/
def save_jobs : Store → List JobModel → Store × Nat
  | db, [] => (db, 0)
  | db, j :: rest =>
    if j.jobId = "" then save_jobs db rest
    else
      let inc : Nat := if containsKey db j.jobId then 0 else 1
      let r := save_jobs (insertPy db j.jobId j) rest
      (r.1, inc + r.2)

/-! ## Date normalization (scraper.py 270-343) -/

/-- Keep only the left value of a sequence. -/
def pLeft (p : P α) (q : P β) : P α := pMap (fun r => r.1) (pThen p q)

/-- Keep only the right value of a sequence. -/
def pRight (p : P α) (q : P β) : P β := pMap (fun r => r.2) (pThen p q)

/-- `strptime(s, "%B %d, %Y")` plus the `datetime` constructor check
(scraper.py 290). -/
def strptime_BdY (s : String) : Option (Nat × Nat × Nat) :=
  match runFull (pThen (pThen (pThen (pThen pB pWs) pd) (pLit ',')) (pRight pWs pY)) s.toList with
  | some r =>
    let m := r.1.1.1.1
    let d := r.1.1.2
    let y := r.2
    if validYMD y m d then some (y, m, d) else Option.none
  | Option.none => Option.none

/-- `strptime(s, "%a, %d %b %Y %H:%M:%S %z")` (scraper.py 297).  The
weekday is not checked against the date; the `datetime` constructor
additionally rejects a leap second (`%S` = 60/61) and a UTC offset of
24 hours or more. -/
def strptime_RFC (s : String) : Option (Nat × Nat × Nat) :=
  let afterDay := pRight (pRight (pRight pa (pLit ',')) pWs) pd
  let p :=
    pThen (pThen (pThen (pThen (pThen (pThen afterDay (pRight pWs pb)) (pRight pWs pY))
      (pRight pWs pH)) (pRight (pLit ':') pM)) (pRight (pLit ':') pS)) (pRight pWs pz)
  match runFull p s.toList with
  | some r =>
    let d := r.1.1.1.1.1.1
    let mo := r.1.1.1.1.1.2
    let y := r.1.1.1.1.2
    let sec := r.1.2
    let zh := r.2
    if validYMD y mo d && sec ≤ 59 && zh ≤ 23 then some (y, mo, d) else Option.none
  | Option.none => Option.none

/-- `strptime(s, "%m/%d/%Y")` (scraper.py 304). -/
def strptime_mdY (s : String) : Option (Nat × Nat × Nat) :=
  match runFull (pThen (pThen (pThen (pThen pm (pLit '/')) pd) (pLit '/')) pY) s.toList with
  | some r =>
    let m := r.1.1.1.1
    let d := r.1.1.2
    let y := r.2
    if validYMD y m d then some (y, m, d) else Option.none
  | Option.none => Option.none

/-- The ordered layout attempts of scraper.py 288-324: full month name;
RFC-mail style; `MM/DD/YYYY`; the date part before a `T`; bare
`YYYY-MM-DD`.  The first layout that parses wins. -/
def tryDateLayouts (c : String) : Option (Nat × Nat × Nat) :=
  match strptime_BdY c with
  | some r => some r
  | Option.none =>
  match strptime_RFC c with
  | some r => some r
  | Option.none =>
  match strptime_mdY c with
  | some r => some r
  | Option.none =>
  match
    (if c.toList.contains 'T' then strptime_Ymd ((c.toList.takeWhile (fun x => x ≠ 'T')).asString)
     else Option.none) with
  | some r => some r
  | Option.none => strptime_Ymd c

/-- The one exception `normalize_date` can leak: scraper.py 340 catches
only `ValueError` and `OSError`, so the `OverflowError` that
`datetime.fromtimestamp` raises for a timestamp beyond the platform
`time_t` escapes. -/
inductive PyErr where
  | overflowError
deriving DecidableEq

deriving instance DecidableEq for Except

/-- Largest value of a 64-bit `time_t`. -/
def timeTMax : Int := 9223372036854775807

/-- Days from 0001-01-01 to 1970-01-01 in the proleptic Gregorian
calendar. -/
def epochDays : Nat := 719162

/-- Zero-based day index of 9999-12-31 counted from 0001-01-01;
`datetime` raises `ValueError` past year 9999. -/
def maxCivilDay : Nat := 3652058

/-- Length of a Gregorian year. -/
def daysInYear (y : Nat) : Nat := if isLeap y then 366 else 365

/-- Year lookup by repeated subtraction of year lengths, fuel-indexed so
the recursion is structural; returns the year and the remaining day
offset within it. -/
def yearFromDays : Nat → Nat → Nat → Nat × Nat
  | 0, y, d => (y, d)
  | fuel + 1, y, d =>
    if d < daysInYear y then (y, d) else yearFromDays fuel (y + 1) (d - daysInYear y)

/-- Month lookup within a year by repeated subtraction of month
lengths; returns the month and the 1-based day. -/
def monthFromDays (leap : Bool) : Nat → Nat → Nat → Nat × Nat
  | 0, m, rem => (m, rem + 1)
  | fuel + 1, m, rem =>
    if rem < daysInMonthL leap m then (m, rem + 1)
    else monthFromDays leap fuel (m + 1) (rem - daysInMonthL leap m)

/-- Proleptic Gregorian date of a zero-based day index from 0001-01-01. -/
def civilFromDays (rd : Nat) : Nat × Nat × Nat :=
  let yr := yearFromDays 10006 1 rd
  let md := monthFromDays (isLeap yr.1) 11 1 yr.2
  (yr.1, md.1, md.2)

/-- `datetime.fromtimestamp(secs)` restricted to the civil date
(timezone modelled as UTC): `Option.none` is the `ValueError`/`OSError`
raised when the result is outside `datetime`'s year range (or outside
`localtime`'s range) — both are caught by scraper.py 340. -/
def fromtimestampDate (secs : Int) : Option (Nat × Nat × Nat) :=
  let rd : Int := Int.fdiv secs 86400 + epochDays
  if rd < 0 ∨ rd > (maxCivilDay : Int) then Option.none
  else some (civilFromDays rd.toNat)

/-- scraper.py 329-341, the numeric branch of `normalize_date`: inputs
above 1e10 count as milliseconds; a timestamp beyond `time_t` makes
`fromtimestamp` raise `OverflowError`, which the `except (ValueError,
OSError)` clause does not catch. -/
def numericDate (n : Int) : Except PyErr String :=
  let secs : Int := if n > 10000000000 then Int.fdiv n 1000 else n
  if secs > timeTMax ∨ secs < -(timeTMax + 1) then .error .overflowError
  else
    match fromtimestampDate secs with
    | some ymd => .ok (formatDate ymd.1 ymd.2.1 ymd.2.2)
    | Option.none => .ok "Unknown"

/-- Keyword sentinels of scraper.py 285. -/
def dateSentinels : List String := ["nat", "not available", "n/a", "na", "not specified", "unknown"]

/-- scraper.py 270-343, `normalize_date`. -/
def normalize_date (v : PyVal) : Except PyErr String :=
  if !v.truthy then .ok "Unknown"
  else
    match v with
    | .str s =>
      let c := pyStrip s
      if c = "" then .ok "Unknown"
      else if pyLower c ∈ dateSentinels then .ok "Unknown"
      else
        match tryDateLayouts c with
        | some ymd => .ok (formatDate ymd.1 ymd.2.1 ymd.2.2)
        | Option.none => .ok "Unknown"
    | .int n => numericDate n
    | .float n => numericDate n
    | .bool _ => numericDate 1
    | _ => .ok "Unknown"

example : normalize_date (.str "January 20, 2025") = .ok "2025-01-20" := by decide
example : normalize_date (.str "January 05, 2025") = .ok "2025-01-05" := by decide
example : normalize_date (.str "january  5,   2025") = .ok "2025-01-05" := by decide
example : normalize_date (.str "January 5,2025") = .ok "Unknown" := by decide
example : normalize_date (.str "Jan 20, 2025") = .ok "Unknown" := by decide
example : normalize_date (.str "Tue, 08 Jul 2025 11:25:55 +0000") = .ok "2025-07-08" := by decide
example : normalize_date (.str "tue, 8 jul 2025 1:2:3 -0500") = .ok "2025-07-08" := by decide
example : normalize_date (.str "Tue, 08 Jul 2025 11:25:61 +0000") = .ok "Unknown" := by decide
example : normalize_date (.str "Tue, 08 Jul 2025 11:25:55 Z") = .ok "2025-07-08" := by decide
example : normalize_date (.str "Tue, 08 Jul 2025 11:25:55 z") = .ok "Unknown" := by decide
example : normalize_date (.str "02/10/2025") = .ok "2025-02-10" := by decide
example : normalize_date (.str "2/10/2025") = .ok "2025-02-10" := by decide
example : normalize_date (.str "2025-04-03T11:25:55.567344+00:00") = .ok "2025-04-03" := by decide
example : normalize_date (.str "2025-01-15") = .ok "2025-01-15" := by decide
example : normalize_date (.str "total garbage") = .ok "Unknown" := by decide
example : normalize_date (.str "  N/A ") = .ok "Unknown" := by decide
example : normalize_date (.str "") = .ok "Unknown" := by decide
example : normalize_date PyVal.none = .ok "Unknown" := by decide
example : normalize_date (.list []) = .ok "Unknown" := by decide
example : normalize_date (.obj [("a", .int 1)]) = .ok "Unknown" := by decide
example : normalize_date (.int 0) = .ok "Unknown" := by decide
example : normalize_date (.float 0) = .ok "Unknown" := by decide
example : normalize_date (.bool false) = .ok "Unknown" := by decide
example : normalize_date (.bool true) = .ok "1970-01-01" := by decide
example : normalize_date (.int 1752000000) = .ok "2025-07-08" := by decide
example : normalize_date (.int 1752000000000) = .ok "2025-07-08" := by decide
example : normalize_date (.int (-86400)) = .ok "1969-12-31" := by decide
example : normalize_date (.int 253402300799) = .ok "1978-01-11" := by decide
example : normalize_date (.int 260000000000) = .ok "1978-03-29" := by decide
example : normalize_date (.int 4102444800000) = .ok "2100-01-01" := by decide
example : normalize_date (.int 253402300800000) = .ok "Unknown" := by decide
example : normalize_date (.int 10000000000000000000000) = .error .overflowError := by decide

/-! ## Raw records and `normalize_job_data` (scraper.py 137-170) -/

/-- A raw job dict as delivered by the API: each field either absent or
present.  `jobId`/`title`/`company`/`description` are scoped to strings
(see the header); `location`, `postedDate` and `applicants` may be any
shape. -/
structure RawJob where
  jobId : Option String
  title : Option String
  company : Option String
  location : Option PyVal
  postedDate : Option PyVal
  applicants : Option PyVal
  description : Option String

/-- scraper.py 137-170, `normalize_job_data`: field extraction with
defaults, location/work-type unpacking, date normalization (whose
exception propagates), and `JobModel` construction. -/
def normalize_job_data (j : RawJob) : Except PyErr JobModel :=
  let lw := locWorkPair (j.location.getD .none)
  match normalize_date (j.postedDate.getD .none) with
  | .error e => .error e
  | .ok posted =>
    .ok (mkJobModel (j.jobId.getD "") (j.title.getD "") (j.company.getD "")
      lw.1 lw.2 posted (j.applicants.getD (.int 0)) j.description)

/-! ## Fetch client (scraper.py 47-134)

The remote source is an oracle `env : Nat → Attempt` giving the outcome
of each successive HTTP request the client issues (the attempt index
threads through retries and pages). -/

/-- A successful-transport response: status code, and the parsed
payload (meaningful when the code is 200). -/
structure PageResp where
  code : Nat
  jobs : List RawJob
  next : Option String

/-- Outcome of one `requests.get`: a response, or a transport failure
(`requests.RequestException`). -/
inductive Attempt where
  | resp (r : PageResp)
  | netFail

/-- What `_make_request_with_retry` does for one page: return a
response (of any status), or let the final transport exception
propagate. -/
inductive ReqOutcome where
  | resp (r : PageResp)
  | exn

/-- Trace of one `_make_request_with_retry` call: its outcome, the
backoff waits slept (seconds), how much `_request_count` grew, and the
next oracle index. -/
structure ReqTrace where
  outcome : ReqOutcome
  waits : List Nat
  requests : Nat
  nextIdx : Nat

/-- scraper.py 52-86, the retry loop, structurally recursing on the
retries remaining (`remaining = max_retries - attempt`): status 200 and
4xx return at once; 5xx and transport failure retry after sleeping
`2 ^ attempt` seconds while retries remain; `_request_count` increments
only when the transport returned a response. -/
def makeRequestLoop (env : Nat → Attempt) (attempt i : Nat) : Nat → ReqTrace
  | 0 =>
    (match env i with
     | .resp r => ⟨.resp r, [], 1, i + 1⟩
     | .netFail => ⟨.exn, [], 0, i + 1⟩)
  | remaining + 1 =>
    match env i with
    | .resp r =>
      if r.code = 200 then ⟨.resp r, [], 1, i + 1⟩
      else if 500 ≤ r.code then
        let t := makeRequestLoop env (attempt + 1) (i + 1) remaining
        ⟨t.outcome, 2 ^ attempt :: t.waits, t.requests + 1, t.nextIdx⟩
      else ⟨.resp r, [], 1, i + 1⟩
    | .netFail =>
      let t := makeRequestLoop env (attempt + 1) (i + 1) remaining
      ⟨t.outcome, 2 ^ attempt :: t.waits, t.requests, t.nextIdx⟩

/-- `_make_request_with_retry` entry point. -/
def make_request_with_retry (env : Nat → Attempt) (maxRetries i : Nat) : ReqTrace :=
  makeRequestLoop env 0 i maxRetries

/-- Trace of `fetch_company_jobs`: accumulated raw records, request
count, and next oracle index. -/
structure FetchTrace where
  jobs : List RawJob
  requests : Nat
  nextIdx : Nat

/-- scraper.py 98-130, the pagination loop: a 200 response appends its
records and follows `nextPageToken`; any other outcome (non-200 status
after retries, or a propagated transport exception, caught at line 127)
breaks out with the records accumulated so far.  `fuel` bounds the
number of pages, mirroring the finite run of the loop. -/
def fetchPages (env : Nat → Attempt) (maxRetries : Nat) : Nat → Nat → List RawJob → FetchTrace
  | 0, i, acc => ⟨acc, 0, i⟩
  | fuel + 1, i, acc =>
    let t := make_request_with_retry env maxRetries i
    match t.outcome with
    | .resp r =>
      if r.code = 200 then
        match r.next with
        | Option.none => ⟨acc ++ r.jobs, t.requests, t.nextIdx⟩
        | some _ =>
          let rest := fetchPages env maxRetries fuel t.nextIdx (acc ++ r.jobs)
          ⟨rest.jobs, t.requests + rest.requests, rest.nextIdx⟩
      else ⟨acc, t.requests, t.nextIdx⟩
    | .exn => ⟨acc, t.requests, t.nextIdx⟩

/-- scraper.py 88-134, `fetch_company_jobs`: all pages for one company
starting from an empty accumulator; always returns a plain list, never
an exception. -/
def fetch_company_jobs (env : Nat → Attempt) (maxRetries fuel : Nat) : List RawJob :=
  (fetchPages env maxRetries fuel 0 []).jobs

/-- A retryable fault: transport failure or 5xx status. -/
def serverFault : Attempt → Prop
  | .resp r => 500 ≤ r.code
  | .netFail => True

/-! ## Snapshot load (db.py 78-106) -/

/-- One record of a snapshot's `jobs` list, abstracted to the outcome
of `JobModel(**job_dict)`: `good` carries the constructor arguments of
a dict on which construction succeeds (with `applicants` of any shape —
`__post_init__` coerces it), `bad` is a dict on which construction
raises (missing/unexpected keys, non-string `postedDate`, ...). -/
inductive SnapEntry where
  | good (jobId title company location workType postedDate : String)
      (applicants : PyVal) (description : Option String)
  | bad

/-- State of the snapshot file: absent, present but not parseable as a
JSON document (or not dict-shaped), or parsed with a `jobs` list. -/
inductive FileState where
  | missing
  | invalid
  | parsed (jobs : List SnapEntry)

/-- db.py 92-100, the per-record loop over a parsed snapshot, run on
the freshly cleared dict: a failing construction is skipped
(`except ... continue`); a falsy `jobId` is skipped; otherwise the
record is assigned into the dict. -/
def loadEntries : List SnapEntry → Store → Store
  | [], db => db
  | .bad :: rest, db => loadEntries rest db
  | .good jobId title company location workType postedDate applicants description :: rest, db =>
    let jm := mkJobModel jobId title company location workType postedDate applicants description
    loadEntries rest (if jm.jobId ≠ "" then insertPy db jm.jobId jm else db)

/-- db.py 78-106, `load_from_file`, as a state transformer returning
the final store and `ok` or the propagated exception: a missing file
returns early leaving the store untouched; a parse failure raises at
line 86, before `self.clear()` at line 90, and the outer handler
re-raises it, so the store is also untouched; a parsed snapshot clears
the store and loads its entries. -/
def load_from_file (fs : FileState) (db : Store) : Store × Except Unit Unit :=
  match fs with
  | .missing => (db, .ok ())
  | .invalid => (db, .error ())
  | .parsed jobs => (loadEntries jobs [], .ok ())

example : normalize_location (.str "Remote") = .withWork "Unknown" "Remote" := by decide

/-! ## Helper lemmas -/

theorem normalize_location_str_unfold (s : String) (hs : ¬s = "") (hc : ¬pyStrip s = "") :
    normalize_location (.str s) =
      (if pyLower (pyStrip s) ∈ remoteKws then .withWork "Unknown" "Remote"
       else if pyLower (pyStrip s) ∈ onsiteKws then .withWork "Unknown" "On-site"
       else if pyLower (pyStrip s) ∈ hybridKws then .withWork "Unknown" "Hybrid"
       else if pyLower (pyStrip s) ∈ unknownKws then .plain "Unknown"
       else .plain (standardize_location_string (pyStrip s))) := by
  have ht : (PyVal.str s).truthy = true := by simp [PyVal.truthy, hs]
  simp only [normalize_location, ht, Bool.not_true, Bool.false_eq_true, if_false, if_neg hc]

theorem splitChar_ne_nil (sep : Char) (l : List Char) : splitChar sep l ≠ [] := by
  induction l with
  | nil => simp [splitChar]
  | cons c rest ih =>
    simp only [splitChar]
    by_cases h : c = sep
    · simp [h]
    · simp only [h, if_false]
      cases hr : splitChar sep rest with
      | nil => exact absurd hr ih
      | cons a t => simp

theorem splitChar_mem_of_two_le (sep : Char) (l : List Char)
    (h : 2 ≤ (splitChar sep l).length) : sep ∈ l := by
  induction l with
  | nil => simp [splitChar] at h
  | cons c rest ih =>
    simp only [splitChar] at h
    by_cases hc : c = sep
    · simp [hc]
    · simp only [hc, if_false] at h
      cases hr : splitChar sep rest with
      | nil => exact absurd hr (splitChar_ne_nil sep rest)
      | cons a t =>
        rw [hr] at h
        have h2 : 2 ≤ (splitChar sep rest).length := by
          rw [hr]
          simpa using h
        simp [ih h2]

/-- C7: for a non-keyword location string, the standardizer collapses an
exactly-three-part "City, Region, Country" into "City, Region" when the
country is a US alias and "City, Country" otherwise, and passes any
string with fewer than three comma-separated parts through unchanged. -/
theorem standardize_location_three_parts :
    (∀ s a b c,
      (splitChar ',' s.toList).map (fun l => (pyStripL l).asString) = [a, b, c] →
      standardize_location_string s =
        (if pyLower c ∈ usAliases then a ++ ", " ++ b else a ++ ", " ++ c))
    ∧ (∀ s, (splitChar ',' s.toList).length < 3 → standardize_location_string s = s) := by
  constructor
  · intro s a b c h
    have hne : ¬s = "" := by
      intro he
      subst he
      simp [splitChar] at h
    have hmem : ',' ∈ s.toList := by
      apply splitChar_mem_of_two_le
      have := congrArg List.length h
      simp only [List.length_map, List.length_cons, List.length_nil] at this
      omega
    have hcond : (decide (s = "") || !(s.toList.contains ',')) = false := by
      simp [hne]
      exact hmem
    simp only [standardize_location_string, hcond, Bool.false_eq_true, if_false]
    rw [h]
  · intro s hlen
    by_cases hne : s = ""
    · simp [standardize_location_string, hne]
    · by_cases hmem : ',' ∈ s.toList
      · have hcond : (decide (s = "") || !(s.toList.contains ',')) = false := by
          simp [hne]
          exact hmem
        simp only [standardize_location_string, hcond, Bool.false_eq_true, if_false]
        rcases hp : (splitChar ',' s.toList).map (fun l => (pyStripL l).asString) with
          _ | ⟨a, _ | ⟨b, _ | ⟨c, rest⟩⟩⟩
        · rfl
        · rfl
        · rfl
        · exfalso
          have := congrArg List.length hp
          simp only [List.length_map, List.length_cons] at this
          omega
      · have hcond : (decide (s = "") || !(s.toList.contains ',')) = true := by
          simp
          exact Or.inr hmem
        simp only [standardize_location_string, hcond, if_true]

theorem containsKey_insertPy (db : Store) (k : String) (v : JobModel) (x : String) :
    containsKey (insertPy db k v) x = true ↔ (k = x ∨ containsKey db x = true) := by
  induction db with
  | nil =>
    simp only [insertPy, containsKey, List.any_cons, List.any_nil, Bool.or_false,
      beq_iff_eq, Bool.false_eq_true, or_false]
  | cons p rest ih =>
    by_cases hp : p.1 = k
    · simp only [insertPy, hp, if_true, containsKey, List.any_cons, Bool.or_eq_true,
        beq_iff_eq] at ih ⊢
      rw [← hp]
      tauto
    · simp only [insertPy, hp, if_false, containsKey, List.any_cons, Bool.or_eq_true,
        beq_iff_eq] at ih ⊢
      rw [ih]
      tauto

theorem get_job_insertPy_self (db : Store) (k : String) (v : JobModel) :
    get_job (insertPy db k v) k = some v := by
  induction db with
  | nil => simp [insertPy, get_job]
  | cons p rest ih =>
    by_cases hp : p.1 = k
    · simp [insertPy, hp, get_job]
    · simp only [insertPy, hp, if_false]
      simp only [get_job, List.find?_cons] at ih ⊢
      have : (p.1 == k) = false := by simp [hp]
      rw [this]
      exact ih

theorem containsKey_save_jobs (jobs : List JobModel) (db : Store) (k : String) :
    containsKey (save_jobs db jobs).1 k = true ↔
      (containsKey db k = true ∨ ∃ j ∈ jobs, j.jobId = k ∧ ¬j.jobId = "") := by
  induction jobs generalizing db with
  | nil => simp [save_jobs]
  | cons j rest ih =>
    by_cases h1 : j.jobId = ""
    · rw [show save_jobs db (j :: rest) = save_jobs db rest by simp [save_jobs, h1], ih]
      constructor
      · rintro (h | h)
        · exact Or.inl h
        · exact Or.inr (by simpa using Or.inr h)
      · rintro (h | h)
        · exact Or.inl h
        · simp only [List.mem_cons] at h
          rcases h with ⟨j2, (rfl | hj2), hk, hne⟩
          · exact absurd h1 hne
          · exact Or.inr ⟨j2, hj2, hk, hne⟩
    · have hunf : (save_jobs db (j :: rest)).1 = (save_jobs (insertPy db j.jobId j) rest).1 := by
        simp [save_jobs, h1]
      rw [hunf, ih]
      rw [containsKey_insertPy]
      constructor
      · rintro ((rfl | h) | h)
        · exact Or.inr ⟨j, by simp, rfl, h1⟩
        · exact Or.inl h
        · exact Or.inr (by simpa using Or.inr h)
      · rintro (h | h)
        · exact Or.inl (Or.inr h)
        · simp only [List.mem_cons] at h
          rcases h with ⟨j2, (rfl | hj2), hk, hne⟩
          · exact Or.inl (Or.inl hk)
          · exact Or.inr ⟨j2, hj2, hk, hne⟩

/-- The key a record contributes to `save_jobs`'s insert count against
store `db`: its `jobId` when that is non-empty and not yet resident. -/
def newKeyOf (db : Store) (j : JobModel) : Option String :=
  if j.jobId ≠ "" ∧ ¬containsKey db j.jobId = true then some j.jobId else Option.none

theorem newKeyOf_insert_resident (db : Store) (k : String) (v : JobModel)
    (h : containsKey db k = true) : newKeyOf (insertPy db k v) = newKeyOf db := by
  funext j
  unfold newKeyOf
  by_cases h1 : j.jobId = ""
  · simp [h1]
  · apply if_congr _ rfl rfl
    constructor
    · rintro ⟨hne, hnc⟩
      refine ⟨hne, fun hc => hnc ?_⟩
      exact (containsKey_insertPy db k v j.jobId).2 (Or.inr hc)
    · rintro ⟨hne, hnc⟩
      refine ⟨hne, fun hc => hnc ?_⟩
      rcases (containsKey_insertPy db k v j.jobId).1 hc with rfl | hc2
      · exact h
      · exact hc2

theorem filterMap_newKeyOf_insert_new (db : Store) (k : String) (v : JobModel)
    (jobs : List JobModel) :
    jobs.filterMap (newKeyOf (insertPy db k v)) =
      (jobs.filterMap (newKeyOf db)).filter (fun x => x != k) := by
  induction jobs with
  | nil => simp
  | cons j rest ih =>
    simp only [List.filterMap_cons]
    by_cases h1 : j.jobId = ""
    · rw [show newKeyOf (insertPy db k v) j = Option.none by simp [newKeyOf, h1],
        show newKeyOf db j = Option.none by simp [newKeyOf, h1]]
      exact ih
    · by_cases h3 : j.jobId = k
      · have hL : newKeyOf (insertPy db k v) j = Option.none := by
          unfold newKeyOf
          rw [if_neg]
          rintro ⟨_, hnc⟩
          exact hnc ((containsKey_insertPy db k v j.jobId).2 (Or.inl h3.symm))
        rw [hL]
        by_cases h2 : containsKey db j.jobId = true
        · rw [show newKeyOf db j = Option.none by simp [newKeyOf, h2]]
          exact ih
        · rw [show newKeyOf db j = some j.jobId by simp [newKeyOf, h1, h2]]
          rw [List.filter_cons]
          have : (j.jobId != k) = false := by simp [h3]
          rw [this]
          simpa using ih
      · have hiff : containsKey (insertPy db k v) j.jobId = true ↔ containsKey db j.jobId = true := by
          rw [containsKey_insertPy]
          exact ⟨fun h => h.resolve_left (fun he => h3 he.symm), Or.inr⟩
        by_cases h2 : containsKey db j.jobId = true
        · rw [show newKeyOf (insertPy db k v) j = Option.none by
            simp [newKeyOf, hiff.2 h2],
            show newKeyOf db j = Option.none by simp [newKeyOf, h2]]
          exact ih
        · have hsome : newKeyOf (insertPy db k v) j = some j.jobId := by
            have hcond : j.jobId ≠ "" ∧ ¬containsKey (insertPy db k v) j.jobId = true :=
              ⟨h1, fun hc => h2 (hiff.1 hc)⟩
            unfold newKeyOf
            exact if_pos hcond
          rw [hsome, show newKeyOf db j = some j.jobId by simp [newKeyOf, h1, h2]]
          rw [List.filter_cons]
          have : (j.jobId != k) = true := by simp [h3]
          rw [this]
          simp [ih]

theorem save_jobs_count (jobs : List JobModel) (db : Store) :
    (save_jobs db jobs).2 = ((jobs.filterMap (newKeyOf db)).toFinset).card := by
  induction jobs generalizing db with
  | nil => simp [save_jobs]
  | cons j rest ih =>
    by_cases h1 : j.jobId = ""
    · rw [show save_jobs db (j :: rest) = save_jobs db rest by simp [save_jobs, h1], ih]
      rw [List.filterMap_cons, show newKeyOf db j = Option.none by simp [newKeyOf, h1]]
    · by_cases h2 : containsKey db j.jobId = true
      · have hunf : (save_jobs db (j :: rest)).2 = (save_jobs (insertPy db j.jobId j) rest).2 := by
          simp [save_jobs, h1, h2]
        rw [hunf, ih, newKeyOf_insert_resident db j.jobId j h2]
        rw [List.filterMap_cons, show newKeyOf db j = Option.none by simp [newKeyOf, h2]]
      · have hunf : (save_jobs db (j :: rest)).2
            = 1 + (save_jobs (insertPy db j.jobId j) rest).2 := by
          simp [save_jobs, h1, h2]
        rw [hunf, ih, filterMap_newKeyOf_insert_new db j.jobId j rest]
        rw [List.filterMap_cons, show newKeyOf db j = some j.jobId by simp [newKeyOf, h1, h2]]
        rw [List.toFinset_cons, List.toFinset_filter]
        have he : (rest.filterMap (newKeyOf db)).toFinset.filter (fun x => x != j.jobId)
            = (rest.filterMap (newKeyOf db)).toFinset.erase j.jobId := by
          rw [← Finset.filter_ne']
          apply Finset.filter_congr
          intro x _
          simp
        rw [he]
        by_cases hmem : j.jobId ∈ (rest.filterMap (newKeyOf db)).toFinset
        · rw [Finset.card_insert_of_mem hmem]
          have := Finset.card_erase_add_one hmem
          omega
        · rw [Finset.card_insert_of_not_mem hmem, Finset.erase_eq_of_not_mem hmem]
          omega

/-- C2: `save_jobs` skips records with an empty key (neither stored nor
counted), upserts every other record by key, returns the number of
distinct non-resident keys among the batch (not the records processed),
and a second upsert of the same key returns 0 while `get_job` then
returns the latest payload. -/
theorem save_jobs_upsert_spec :
    (∀ db (j : JobModel) rest, j.jobId = "" → save_jobs db (j :: rest) = save_jobs db rest)
    ∧ (∀ db jobs, (save_jobs db jobs).2 = ((jobs.filterMap (newKeyOf db)).toFinset).card)
    ∧ (∀ db jobs k, containsKey (save_jobs db jobs).1 k = true ↔
        (containsKey db k = true ∨ ∃ j ∈ jobs, j.jobId = k ∧ ¬j.jobId = ""))
    ∧ (∀ db (j j2 : JobModel), ¬j.jobId = "" → j2.jobId = j.jobId →
        (save_jobs (save_jobs db [j]).1 [j2]).2 = 0
          ∧ get_job (save_jobs (save_jobs db [j]).1 [j2]).1 j.jobId = some j2) := by
  refine ⟨?_, ?_, ?_, ?_⟩
  · intro db j rest h
    simp [save_jobs, h]
  · intro db jobs
    exact save_jobs_count jobs db
  · intro db jobs k
    exact containsKey_save_jobs jobs db k
  · intro db j j2 hj hj2
    have hj2ne : ¬j2.jobId = "" := by rw [hj2]; exact hj
    have h1 : (save_jobs db [j]).1 = insertPy db j.jobId j := by
      simp [save_jobs, hj]
    have hck : containsKey (insertPy db j.jobId j) j2.jobId = true := by
      rw [hj2]
      exact (containsKey_insertPy db j.jobId j j.jobId).2 (Or.inl rfl)
    refine ⟨?_, ?_⟩
    · rw [h1]
      simp [save_jobs, hj2ne, hck]
    · rw [h1]
      have h2 : (save_jobs (insertPy db j.jobId j) [j2]).1
          = insertPy (insertPy db j.jobId j) j2.jobId j2 := by
        simp [save_jobs, hj2ne]
      rw [h2, hj2]
      exact get_job_insertPy_self (insertPy db j.jobId j) j.jobId j2

/-- A first payload for the C2 witness. -/
def wJobA : JobModel :=
  mkJobModel "TEST-001" "Software Engineer" "TechCorp" "Unknown" "Unknown" "Unknown"
    (.int 0) Option.none

/-- A second payload with the same key for the C2 witness. -/
def wJobB : JobModel :=
  mkJobModel "TEST-001" "Senior Software Engineer" "TechCorp" "Unknown" "Unknown" "Unknown"
    (.int 3) Option.none

/-- C2 witness: a concrete double upsert of the same key. -/
theorem save_jobs_upsert_spec_witness :
    (save_jobs (save_jobs [] [wJobA]).1 [wJobB]).2 = 0
      ∧ get_job (save_jobs (save_jobs [] [wJobA]).1 [wJobB]).1 wJobA.jobId = some wJobB :=
  save_jobs_upsert_spec.2.2.2 [] wJobA wJobB (by decide) (by decide)

/-- The Record invariant established by `__post_init__` (C4, amended
formulation): enum membership for the work type, non-negativity, and a
postedDate that is either the sentinel or parseable as `%Y-%m-%d`. -/
def jobInvariant (jm : JobModel) : Prop :=
  jm.workType ∈ validWorkTypes
    ∧ 0 ≤ jm.applicants
    ∧ (jm.postedDate = "Unknown" ∨ (strptime_Ymd jm.postedDate).isSome = true)

/-- The claim's own reading of a "valid ISO YYYY-MM-DD calendar date
string": exactly ten characters, zero-padded, naming a real calendar
date (spec-side definition, used to compare the claimed invariant with
the code's weaker validation). -/
def isCanonicalYMD (s : String) : Bool :=
  match s.toList with
  | [y1, y2, y3, y4, c1, m1, m2, c2, d1, d2] =>
    y1.isDigit && y2.isDigit && y3.isDigit && y4.isDigit && c1 = '-' && c2 = '-' &&
    m1.isDigit && m2.isDigit && d1.isDigit && d2.isDigit &&
    validYMD (1000 * digitVal y1 + 100 * digitVal y2 + 10 * digitVal y3 + digitVal y4)
      (10 * digitVal m1 + digitVal m2) (10 * digitVal d1 + digitVal d2)
  | _ => false

/-- C4 counterexample: `__post_init__` keeps `"2025-1-5"` — `strptime`
accepts single-digit month and day — so a freshly constructed record
carries a postedDate that is neither "Unknown" nor of the zero-padded
"YYYY-MM-DD" form the claim states. -/
theorem jobmodel_posteddate_not_canonical :
    (mkJobModel "J1" "T" "C" "Unknown" "Unknown" "2025-1-5" (.int 0) Option.none).postedDate
        = "2025-1-5"
      ∧ isCanonicalYMD "2025-1-5" = false
      ∧ "2025-1-5" ≠ "Unknown" := by
  refine ⟨by decide, by decide, by decide⟩

/-- C4 (amended): after construction the workType is one of the four
enum values (anything else coerces to "Unknown"), the applicant count
is a non-negative integer (negative or non-`int` input coerces to 0),
and the postedDate is either "Unknown" or a string `strptime` accepts
for `%Y-%m-%d` — a valid calendar date, though possibly without zero
padding; and `save_jobs` never makes an empty id resident. -/
theorem jobmodel_invariants_amended :
    (∀ jobId title company location workType postedDate applicants description,
      jobInvariant (mkJobModel jobId title company location workType postedDate
        applicants description))
    ∧ (∀ db jobs, containsKey db "" = false → containsKey (save_jobs db jobs).1 "" = false) := by
  constructor
  · intro jobId title company location workType postedDate applicants description
    refine ⟨?_, ?_, ?_⟩
    · simp only [mkJobModel]
      by_cases h : workType ∈ validWorkTypes
      · rw [if_pos h]; exact h
      · rw [if_neg h]; decide
    · simp only [mkJobModel]
      cases applicants <;> simp [validateApplicants]
      case int n => split <;> omega
      case bool b => split <;> omega
    · simp only [mkJobModel]
      by_cases h1 : postedDate = "Unknown"
      · rw [if_pos h1]; exact Or.inl h1
      · rw [if_neg h1]
        by_cases h2 : (strptime_Ymd postedDate).isSome = true
        · rw [if_pos h2]; exact Or.inr h2
        · rw [if_neg h2]; exact Or.inl rfl
  · intro db jobs h
    cases hcc : containsKey (save_jobs db jobs).1 "" with
    | false => rfl
    | true =>
      rcases (containsKey_save_jobs jobs db "").1 hcc with hc | ⟨j, _, hk, hne⟩
      · rw [h] at hc; exact hc.symm
      · exact absurd hk hne

/-- C4 witness: the invariant at a record built from hostile input, and
empty-id preservation on a concrete store. -/
theorem jobmodel_invariants_amended_witness :
    jobInvariant (mkJobModel "W1" "t" "c" "Loc" "Teleport" "bogus date" (.float 3) Option.none)
      ∧ (containsKey [] "" = false → containsKey
          (save_jobs [] [mkJobModel "" "t" "c" "L" "Remote" "Unknown" (.int 1) Option.none]).1 ""
            = false) :=
  ⟨jobmodel_invariants_amended.1 "W1" "t" "c" "Loc" "Teleport" "bogus date" (.float 3) Option.none,
   fun h => jobmodel_invariants_amended.2 []
     [mkJobModel "" "t" "c" "L" "Remote" "Unknown" (.int 1) Option.none] h⟩

theorem loadEntries_append_bad (pre post : List SnapEntry) (db0 : Store) :
    loadEntries (pre ++ SnapEntry.bad :: post) db0 = loadEntries (pre ++ post) db0 := by
  induction pre generalizing db0 with
  | nil => rfl
  | cons entry rest ih =>
    cases entry with
    | bad => simpa using ih db0
    | good a b c d e f g hdesc =>
      simp only [List.cons_append, loadEntries]
      exact ih _

/-- C8: importSnapshot: a missing file leaves the store untouched and
raises nothing; a parsed snapshot replaces the store's entire prior
contents (the result is independent of them) and completes without
error; a snapshot record on which model construction fails is skipped
without aborting the load of the rest. -/
theorem load_from_file_spec :
    (∀ db, load_from_file .missing db = (db, .ok ()))
    ∧ (∀ jobs db db2,
        (load_from_file (.parsed jobs) db).1 = (load_from_file (.parsed jobs) db2).1)
    ∧ (∀ jobs db, (load_from_file (.parsed jobs) db).2 = .ok ())
    ∧ (∀ pre post db, load_from_file (.parsed (pre ++ SnapEntry.bad :: post)) db
        = load_from_file (.parsed (pre ++ post)) db) := by
  refine ⟨fun db => rfl, fun jobs db db2 => rfl, fun jobs db => rfl, ?_⟩
  intro pre post db
  simp only [load_from_file]
  rw [loadEntries_append_bad]

/-- C9: when the snapshot file exists but does not parse as JSON, the
raised error propagates to the caller and the store is exactly what it
was before the call — the file is parsed (db.py line 86) before the
store is cleared (line 90). -/
theorem load_invalid_preserves_store (db : Store) :
    load_from_file .invalid db = (db, .error ()) := rfl

/-- C5: every string equal, after trimming and case-folding, to a
work-arrangement keyword maps to location "Unknown" with the matching
arrangement; the unknown-location sentinels map to ("Unknown",
"Unknown").  The pair is the one `normalize_job_data` unpacks
(`locWorkPair`). -/
theorem normalize_location_keywords :
    (∀ s, pyLower (pyStrip s) ∈ remoteKws → locWorkPair (.str s) = ("Unknown", "Remote"))
    ∧ (∀ s, pyLower (pyStrip s) ∈ onsiteKws → locWorkPair (.str s) = ("Unknown", "On-site"))
    ∧ (∀ s, pyLower (pyStrip s) ∈ hybridKws → locWorkPair (.str s) = ("Unknown", "Hybrid"))
    ∧ (∀ s, pyLower (pyStrip s) ∈ unknownKws → locWorkPair (.str s) = ("Unknown", "Unknown")) := by
  have disj1 : ∀ x ∈ onsiteKws, x ∉ remoteKws := by decide
  have disj2 : ∀ x ∈ hybridKws, x ∉ remoteKws := by decide
  have disj3 : ∀ x ∈ hybridKws, x ∉ onsiteKws := by decide
  have disj4 : ∀ x ∈ unknownKws, x ∉ remoteKws := by decide
  have disj5 : ∀ x ∈ unknownKws, x ∉ onsiteKws := by decide
  have disj6 : ∀ x ∈ unknownKws, x ∉ hybridKws := by decide
  refine ⟨?_, ?_, ?_, ?_⟩ <;> intro s h
  · have hc : ¬pyStrip s = "" := fun he => by rw [he] at h; revert h; decide
    have hs : ¬s = "" := fun he => hc (by rw [he]; decide)
    rw [locWorkPair, normalize_location_str_unfold s hs hc, if_pos h]
  · have hc : ¬pyStrip s = "" := fun he => by rw [he] at h; revert h; decide
    have hs : ¬s = "" := fun he => hc (by rw [he]; decide)
    rw [locWorkPair, normalize_location_str_unfold s hs hc, if_neg (disj1 _ h), if_pos h]
  · have hc : ¬pyStrip s = "" := fun he => by rw [he] at h; revert h; decide
    have hs : ¬s = "" := fun he => hc (by rw [he]; decide)
    rw [locWorkPair, normalize_location_str_unfold s hs hc, if_neg (disj2 _ h),
      if_neg (disj3 _ h), if_pos h]
  · have hc : ¬pyStrip s = "" := fun he => by rw [he] at h; revert h; decide
    have hs : ¬s = "" := fun he => hc (by rw [he]; decide)
    rw [locWorkPair, normalize_location_str_unfold s hs hc, if_neg (disj4 _ h),
      if_neg (disj5 _ h), if_neg (disj6 _ h), if_pos h]

/-- C5 witness. -/
theorem normalize_location_keywords_witness :
    locWorkPair (.str " Remote ") = ("Unknown", "Remote")
      ∧ locWorkPair (.str "ON SITE") = ("Unknown", "On-site")
      ∧ locWorkPair (.str "hYbRiD") = ("Unknown", "Hybrid")
      ∧ locWorkPair (.str "Not Specified") = ("Unknown", "Unknown") :=
  ⟨normalize_location_keywords.1 " Remote " (by decide),
   normalize_location_keywords.2.1 "ON SITE" (by decide),
   normalize_location_keywords.2.2.1 "hYbRiD" (by decide),
   normalize_location_keywords.2.2.2 "Not Specified" (by decide)⟩

theorem makeRequestLoop_fault (env : Nat → Attempt) (attempt i rem : Nat)
    (h : serverFault (env i)) :
    (makeRequestLoop env attempt i (rem + 1)).outcome
        = (makeRequestLoop env (attempt + 1) (i + 1) rem).outcome
      ∧ (makeRequestLoop env attempt i (rem + 1)).waits
        = 2 ^ attempt :: (makeRequestLoop env (attempt + 1) (i + 1) rem).waits
      ∧ (makeRequestLoop env attempt i (rem + 1)).nextIdx
        = (makeRequestLoop env (attempt + 1) (i + 1) rem).nextIdx := by
  cases henv : env i with
  | netFail => simp [makeRequestLoop, henv]
  | resp r =>
    have h5 : 500 ≤ r.code := by rw [henv] at h; exact h
    have hn200 : ¬r.code = 200 := by omega
    simp [makeRequestLoop, henv, hn200, h5]

theorem makeRequestLoop_last (env : Nat → Attempt) (attempt i : Nat) :
    (makeRequestLoop env attempt i 0).waits = []
      ∧ (makeRequestLoop env attempt i 0).nextIdx = i + 1
      ∧ ((makeRequestLoop env attempt i 0).outcome = .exn
          ∨ ∃ r, env i = .resp r ∧ (makeRequestLoop env attempt i 0).outcome = .resp r) := by
  cases henv : env i with
  | netFail => simp [makeRequestLoop, henv]
  | resp r => simp [makeRequestLoop, henv]

theorem makeRequestLoop_nextIdx_le (env : Nat → Attempt) (rem : Nat) :
    ∀ attempt i, (makeRequestLoop env attempt i rem).nextIdx ≤ i + rem + 1 := by
  induction rem with
  | zero =>
    intro attempt i
    cases henv : env i <;> simp [makeRequestLoop, henv]
  | succ rem ih =>
    intro attempt i
    cases henv : env i with
    | netFail =>
      simp only [makeRequestLoop, henv]
      have := ih (attempt + 1) (i + 1)
      omega
    | resp r =>
      by_cases h200 : r.code = 200
      · simp only [makeRequestLoop, henv, h200, if_true]
        omega
      · by_cases h5 : 500 ≤ r.code
        · simp only [makeRequestLoop, henv, h200, if_false, h5, if_true]
          have := ih (attempt + 1) (i + 1)
          omega
        · simp only [makeRequestLoop, henv, h200, h5, if_false]
          omega

/-- C3: a 4xx response returns immediately with no retry and no wait; a
run of retryable faults (5xx or transport failure) is retried with
backoff waits 1s, 2s, 4s and at most `maxRetries` retries (so at most
4 requests for the default 3); a non-200 outcome or a propagated
transport exception makes `fetch_company_jobs`'s page loop stop and
yield exactly the records accumulated from the prior successful pages
(never an exception); in particular four consecutive faults exhaust the
retries and yield the accumulated records. -/
theorem fetch_retry_policy :
    (∀ env i r, env i = .resp r → 400 ≤ r.code → r.code < 500 →
      make_request_with_retry env 3 i = ⟨.resp r, [], 1, i + 1⟩)
    ∧ (∀ env i, (∀ k, k < 3 → serverFault (env (i + k))) →
        (make_request_with_retry env 3 i).waits = [1, 2, 4]
          ∧ (make_request_with_retry env 3 i).nextIdx = i + 4)
    ∧ (∀ env i, (make_request_with_retry env 3 i).nextIdx ≤ i + 4)
    ∧ (∀ env maxR i fuel acc r, (make_request_with_retry env maxR i).outcome = .resp r →
        ¬r.code = 200 → (fetchPages env maxR (fuel + 1) i acc).jobs = acc)
    ∧ (∀ env maxR i fuel acc, (make_request_with_retry env maxR i).outcome = .exn →
        (fetchPages env maxR (fuel + 1) i acc).jobs = acc)
    ∧ (∀ env i fuel acc, (∀ k, k < 4 → serverFault (env (i + k))) →
        (fetchPages env 3 (fuel + 1) i acc).jobs = acc) := by
  have hstop : ∀ env maxR i fuel acc, ((∃ r, (make_request_with_retry env maxR i).outcome = .resp r
      ∧ ¬r.code = 200) ∨ (make_request_with_retry env maxR i).outcome = .exn) →
      (fetchPages env maxR (fuel + 1) i acc).jobs = acc := by
    intro env maxR i fuel acc h
    rcases h with ⟨r, hout, h200⟩ | hout
    · simp only [fetchPages, hout, h200, if_false]
    · simp only [fetchPages, hout]
  have hfault3 : ∀ env i, (∀ k, k < 3 → serverFault (env (i + k))) →
      (make_request_with_retry env 3 i).outcome = (makeRequestLoop env 3 (i + 3) 0).outcome
        ∧ (make_request_with_retry env 3 i).waits
          = [1, 2, 4] ++ (makeRequestLoop env 3 (i + 3) 0).waits
        ∧ (make_request_with_retry env 3 i).nextIdx = (makeRequestLoop env 3 (i + 3) 0).nextIdx := by
    intro env i h
    have h0 := makeRequestLoop_fault env 0 i 2 (by simpa using h 0 (by omega))
    have h1 := makeRequestLoop_fault env 1 (i + 1) 1 (by simpa using h 1 (by omega))
    have h2 := makeRequestLoop_fault env 2 (i + 2) 0 (by
      have := h 2 (by omega)
      simpa [Nat.add_assoc] using this)
    have hidx : i + 1 + 1 + 1 = i + 3 := by omega
    refine ⟨?_, ?_, ?_⟩
    · rw [make_request_with_retry, h0.1, h1.1, h2.1, hidx]
    · rw [make_request_with_retry, h0.2.1, h1.2.1, h2.2.1, hidx]
      rfl
    · rw [make_request_with_retry, h0.2.2, h1.2.2, h2.2.2, hidx]
  refine ⟨?_, ?_, ?_, ?_, ?_, ?_⟩
  · intro env i r henv h4 h5
    have hn200 : ¬r.code = 200 := by omega
    have hn500 : ¬500 ≤ r.code := by omega
    simp [make_request_with_retry, makeRequestLoop, henv, hn200, hn500]
  · intro env i h
    have hf := hfault3 env i h
    have hl := makeRequestLoop_last env 3 (i + 3)
    refine ⟨?_, ?_⟩
    · rw [hf.2.1, hl.1]
      rfl
    · rw [hf.2.2, hl.2.1]
  · intro env i
    have := makeRequestLoop_nextIdx_le env 3 0 i
    simpa [make_request_with_retry] using this
  · intro env maxR i fuel acc r hout h200
    exact hstop env maxR i fuel acc (Or.inl ⟨r, hout, h200⟩)
  · intro env maxR i fuel acc hout
    exact hstop env maxR i fuel acc (Or.inr hout)
  · intro env i fuel acc h
    have hf := hfault3 env i (fun k hk => h k (by omega))
    have hl := makeRequestLoop_last env 3 (i + 3)
    rcases hl.2.2 with hexn | ⟨r, henv, hout⟩
    · exact hstop env 3 i fuel acc (Or.inr (by rw [hf.1, hexn]))
    · have h5 : 500 ≤ r.code := by
        have := h 3 (by omega)
        rw [henv] at this
        exact this
      exact hstop env 3 i fuel acc (Or.inl ⟨r, by rw [hf.1, hout], by omega⟩)

/-- C3 witness: a concrete page script — page 1 succeeds with a token,
then four straight 500s exhaust the retries (waits 1, 2, 4) and the one
accumulated page is returned. -/
theorem fetch_retry_policy_witness :
    (make_request_with_retry
        (fun _ => .resp { code := 500, jobs := [], next := Option.none }) 3 0).waits = [1, 2, 4]
      ∧ (fetchPages (fun _ => .resp { code := 500, jobs := [], next := Option.none }) 3 5 0
          [job1Raw]).jobs = [job1Raw]
      ∧ make_request_with_retry
          (fun _ => .resp { code := 404, jobs := [], next := Option.none }) 3 7
        = ⟨.resp { code := 404, jobs := [], next := Option.none }, [], 1, 8⟩ := by
  refine ⟨?_, ?_, ?_⟩
  · exact (fetch_retry_policy.2.1 (fun _ => .resp { code := 500, jobs := [], next := Option.none })
      0 (fun k _ => by simp [serverFault])).1
  · exact fetch_retry_policy.2.2.2.2.2 (fun _ => .resp { code := 500, jobs := [], next := Option.none })
      0 4 [job1Raw] (fun k _ => by simp [serverFault])
  · exact fetch_retry_policy.1 (fun _ => .resp { code := 404, jobs := [], next := Option.none })
      7 { code := 404, jobs := [], next := Option.none } rfl (by decide) (by decide)

/-- C1 (code evaluated at the failing input): the numeric input `10^22`
is treated as milliseconds, `10^22 / 1000 = 10^19` exceeds the 64-bit
`time_t`, and `datetime.fromtimestamp` raises `OverflowError` — which
the `except (ValueError, OSError)` clause of scraper.py 340 does not
catch — so `normalize_date` raises instead of returning a date string
or "Unknown". -/
theorem normalize_date_overflow_escapes :
    normalize_date (.int 10000000000000000000000) = .error .overflowError := by decide

/-- The spec's composition of a structured location's text by the most
specific present combination, with the US-alias collapsing rule
(spec-side statement, compared below with `normalize_location`'s dict
branch). -/
def composeLoc (city state country : String) : String :=
  if city ≠ "" && state ≠ "" && country ≠ "" then
    (if pyLower country ∈ usAliases then city ++ ", " ++ state else city ++ ", " ++ country)
  else if city ≠ "" && state ≠ "" then city ++ ", " ++ state
  else if city ≠ "" && country ≠ "" then city ++ ", " ++ country
  else if city ≠ "" then city
  else if state ≠ "" then state
  else if country ≠ "" then country
  else "Unknown"

/-- The C6 concrete-scenario raw record. -/
def job1Raw : RawJob :=
  { jobId := some "JOB-1", title := some "X", company := some "Y",
    location := some (.obj [("city", .str "Seattle"), ("state", .str "Washington"),
      ("country", .str "USA")]),
    postedDate := some (.str "January 20, 2025"),
    applicants := some (.int 75),
    description := Option.none }

/-- C6: for structured location values the sub-fields are the trimmed
string coercions `locField`; a city matching a work-arrangement keyword
set yields ("Unknown", that arrangement) and a city matching the
unknown sentinels yields plain "Unknown"; otherwise the location text
follows the spec's most-specific composition `composeLoc`; and the
JOB-1 record normalizes to ("Seattle, Washington", Unknown,
"2025-01-20", 75). -/
theorem normalize_location_structured :
    (∀ fields, pyLower (locField fields "city") ∈ remoteKws →
      normalize_location (.obj fields) = .withWork "Unknown" "Remote")
    ∧ (∀ fields, pyLower (locField fields "city") ∈ onsiteKws →
      normalize_location (.obj fields) = .withWork "Unknown" "On-site")
    ∧ (∀ fields, pyLower (locField fields "city") ∈ hybridKws →
      normalize_location (.obj fields) = .withWork "Unknown" "Hybrid")
    ∧ (∀ fields, pyLower (locField fields "city") ∈ unknownKws →
      normalize_location (.obj fields) = .plain "Unknown")
    ∧ (∀ fields, pyLower (locField fields "city") ∉ remoteKws →
      pyLower (locField fields "city") ∉ onsiteKws →
      pyLower (locField fields "city") ∉ hybridKws →
      pyLower (locField fields "city") ∉ unknownKws →
      normalize_location (.obj fields) =
        .plain (composeLoc (locField fields "city") (locField fields "state")
          (locField fields "country")))
    ∧ normalize_job_data job1Raw =
        .ok (JobModel.mk "JOB-1" "X" "Y" "Seattle, Washington" "Unknown" "2025-01-20" 75
          Option.none) := by
  have disj1 : ∀ x ∈ onsiteKws, x ∉ remoteKws := by decide
  have disj2 : ∀ x ∈ hybridKws, x ∉ remoteKws := by decide
  have disj3 : ∀ x ∈ hybridKws, x ∉ onsiteKws := by decide
  have disj4 : ∀ x ∈ unknownKws, x ∉ remoteKws := by decide
  have disj5 : ∀ x ∈ unknownKws, x ∉ onsiteKws := by decide
  have disj6 : ∀ x ∈ unknownKws, x ∉ hybridKws := by decide
  have hobj : ∀ (fields : List (String × PyVal)), fields ≠ [] →
      (PyVal.obj fields).truthy = true := by
    intro fields h
    simp [PyVal.truthy, h]
  refine ⟨?_, ?_, ?_, ?_, ?_, by decide⟩
  · intro fields h
    have hC : locField fields "city" ≠ "" := fun he => by rw [he] at h; revert h; decide
    have hne : fields ≠ [] := fun he => by subst he; exact hC rfl
    simp only [normalize_location, hobj fields hne, Bool.not_true, Bool.false_eq_true, if_false]
    simp [hC, h]
  · intro fields h
    have hC : locField fields "city" ≠ "" := fun he => by rw [he] at h; revert h; decide
    have hne : fields ≠ [] := fun he => by subst he; exact hC rfl
    simp only [normalize_location, hobj fields hne, Bool.not_true, Bool.false_eq_true, if_false]
    simp [hC, h, disj1 _ h]
  · intro fields h
    have hC : locField fields "city" ≠ "" := fun he => by rw [he] at h; revert h; decide
    have hne : fields ≠ [] := fun he => by subst he; exact hC rfl
    simp only [normalize_location, hobj fields hne, Bool.not_true, Bool.false_eq_true, if_false]
    simp [hC, h, disj2 _ h, disj3 _ h]
  · intro fields h
    have hC : locField fields "city" ≠ "" := fun he => by rw [he] at h; revert h; decide
    have hne : fields ≠ [] := fun he => by subst he; exact hC rfl
    simp only [normalize_location, hobj fields hne, Bool.not_true, Bool.false_eq_true, if_false]
    simp [hC, h, disj4 _ h, disj5 _ h, disj6 _ h]
  · intro fields h1 h2 h3 h4
    by_cases hne : fields = []
    · subst hne
      decide
    · simp only [normalize_location, hobj fields hne, Bool.not_true, Bool.false_eq_true,
        if_false, composeLoc]
      simp [h1, h2, h3, h4]
      split_ifs <;> rfl

/-- C6 witness: a keyword city and a city/country composition at
concrete inputs. -/
theorem normalize_location_structured_witness :
    normalize_location (.obj [("city", .str " Hybrid ")]) = .withWork "Unknown" "Hybrid"
      ∧ normalize_location (.obj [("city", .str "Austin"), ("country", .str "France")])
          = .plain "Austin, France" := by
  constructor
  · exact normalize_location_structured.2.2.1 [("city", .str " Hybrid ")] (by decide)
  · have h := normalize_location_structured.2.2.2.2.1
      [("city", .str "Austin"), ("country", .str "France")]
      (by decide) (by decide) (by decide) (by decide)
    rw [h]
    decide

/-- C7 witness. -/
theorem standardize_location_three_parts_witness :
    standardize_location_string "Austin, Texas, USA" = "Austin, Texas"
      ∧ standardize_location_string "Lyon, Rhone, France" = "Lyon, France"
      ∧ standardize_location_string "Berlin, Germany" = "Berlin, Germany" := by
  refine ⟨?_, ?_, ?_⟩
  · have h := standardize_location_three_parts.1 "Austin, Texas, USA" "Austin" "Texas" "USA"
      (by decide)
    simpa using h
  · have h := standardize_location_three_parts.1 "Lyon, Rhone, France" "Lyon" "Rhone" "France"
      (by decide)
    simpa using h
  · exact standardize_location_three_parts.2 "Berlin, Germany" (by decide)
example : normalize_location (.str "  ON SITE  ") = .withWork "Unknown" "On-site" := by decide
example : normalize_location (.str "Seattle, WA, USA") = .plain "Seattle, WA" := by decide
example : normalize_location (.str "Paris, Ile-de-France, France") = .plain "Paris, France" := by decide
example : normalize_location (.str "n/a") = .plain "Unknown" := by decide
example :
    normalize_location (.obj [("city", .str "Seattle"), ("state", .str "Washington"),
      ("country", .str "USA")]) = .plain "Seattle, Washington" := by decide
example : normalize_location (.obj [("city", .str "Remote"), ("state", .str "")]) =
    .withWork "Unknown" "Remote" := by decide
example : normalize_location (.obj [("state", .str "Bavaria")]) = .plain "Bavaria" := by decide
example : normalize_location .none = .plain "Unknown" := by decide

/-! ## Calendar validity of the numeric date branch (C10) -/

theorem daysInYear_eq (y : Nat) : daysInYear y = if isLeap y then 366 else 365 := rfl

theorem daysInYear_bounds (y : Nat) : 365 ≤ daysInYear y ∧ daysInYear y ≤ 366 := by
  unfold daysInYear
  split <;> omega

/-- Days in the years `[1, n]`. -/
def spanTo : Nat → Nat
  | 0 => 0
  | n + 1 => spanTo n + daysInYear (n + 1)

theorem spanTo_closed (n : Nat) : spanTo n = 365 * n + (n / 4 - n / 100 + n / 400) := by
  induction n with
  | zero => rfl
  | succ n ih =>
    have hiff : isLeap (n + 1) = true ↔
        (((n + 1) % 4 = 0 ∧ ¬(n + 1) % 100 = 0) ∨ (n + 1) % 400 = 0) := by
      simp [isLeap]
    show spanTo n + daysInYear (n + 1) = _
    rw [ih, daysInYear_eq]
    by_cases hL : isLeap (n + 1) = true
    · rw [if_pos hL]
      rw [hiff] at hL
      rcases hL with ⟨h1, h2⟩ | h1 <;> omega
    · rw [if_neg hL]
      rw [hiff] at hL
      by_cases h4 : (n + 1) % 4 = 0
      · have h100 : (n + 1) % 100 = 0 := by
          by_contra hc
          exact hL (Or.inl ⟨h4, hc⟩)
        have h400 : ¬(n + 1) % 400 = 0 := fun hc => hL (Or.inr hc)
        omega
      · have h400 : ¬(n + 1) % 400 = 0 := fun hc => hL (Or.inr hc)
        omega

theorem spanTo_mono {a b : Nat} (h : a ≤ b) : spanTo a ≤ spanTo b := by
  induction b with
  | zero =>
    have : a = 0 := by omega
    subst this
    exact le_refl _
  | succ b ih =>
    by_cases hab : a ≤ b
    · exact le_trans (ih hab) (Nat.le_add_right _ _)
    · have : a = b + 1 := by omega
      subst this
      exact le_refl _

theorem spanTo_1969 : spanTo 1969 = 719162 := by
  rw [spanTo_closed]

theorem spanTo_9999 : spanTo 9999 = 3652059 := by
  rw [spanTo_closed]

theorem yearFromDays_rem : ∀ (fuel y d : Nat), d < 365 * fuel →
    (yearFromDays fuel y d).2 < daysInYear (yearFromDays fuel y d).1 := by
  intro fuel
  induction fuel with
  | zero =>
    intro y d h
    exact absurd h (by omega)
  | succ fuel ih =>
    intro y d h
    by_cases hd : d < daysInYear y
    · simp only [yearFromDays, hd, if_true]
    · simp only [yearFromDays, hd, if_false]
      apply ih
      have := (daysInYear_bounds y).1
      omega

theorem yearFromDays_span : ∀ (fuel y d : Nat), 1 ≤ y →
    y ≤ (yearFromDays fuel y d).1
      ∧ spanTo ((yearFromDays fuel y d).1 - 1) + (yearFromDays fuel y d).2
        = spanTo (y - 1) + d := by
  intro fuel
  induction fuel with
  | zero =>
    intro y d hy
    exact ⟨le_refl y, rfl⟩
  | succ fuel ih =>
    intro y d hy
    by_cases hd : d < daysInYear y
    · simp only [yearFromDays, hd, if_true]
      exact ⟨le_refl y, trivial⟩
    · simp only [yearFromDays, hd, if_false]
      obtain ⟨ha, hb⟩ := ih (y + 1) (d - daysInYear y) (by omega)
      refine ⟨by omega, ?_⟩
      rw [hb]
      have hstep : spanTo y = spanTo (y - 1) + daysInYear y := by
        cases y with
        | zero => exact absurd hy (by omega)
        | succ m =>
          show spanTo m + daysInYear (m + 1) = spanTo (m + 1 - 1) + daysInYear (m + 1)
          rw [Nat.succ_sub_one]
      have hy1 : y + 1 - 1 = y := by omega
      rw [hy1, hstep]
      omega

theorem monthFromDays_valid : ∀ (leap : Bool) (rem : Nat), rem < 366 →
    rem < (if leap then 366 else 365) →
    1 ≤ (monthFromDays leap 11 1 rem).1 ∧ (monthFromDays leap 11 1 rem).1 ≤ 12
      ∧ 1 ≤ (monthFromDays leap 11 1 rem).2
      ∧ (monthFromDays leap 11 1 rem).2 ≤ daysInMonthL leap (monthFromDays leap 11 1 rem).1 := by
  decide

/-- A real calendar date: month in `[1, 12]`, day fitting the month. -/
def validCivilDate (y m d : Nat) : Prop :=
  1 ≤ m ∧ m ≤ 12 ∧ 1 ≤ d ∧ d ≤ daysInMonth y m

theorem civilFromDays_valid (rd : Nat) (hlo : 719162 ≤ rd) (hhi : rd ≤ 3652058) :
    1970 ≤ (civilFromDays rd).1 ∧ (civilFromDays rd).1 ≤ 9999
      ∧ validCivilDate (civilFromDays rd).1 (civilFromDays rd).2.1 (civilFromDays rd).2.2 := by
  have hfuel : rd < 365 * 10006 := by omega
  have hrem := yearFromDays_rem 10006 1 rd hfuel
  obtain ⟨hY1, hsp⟩ := yearFromDays_span 10006 1 rd (le_refl 1)
  set Y := (yearFromDays 10006 1 rd).1 with hYdef
  set R := (yearFromDays 10006 1 rd).2 with hRdef
  have hsp2 : spanTo (Y - 1) + R = rd := by simpa [spanTo] using hsp
  have hYle : Y ≤ 9999 := by
    by_contra hc
    push_neg at hc
    have hm : spanTo 9999 ≤ spanTo (Y - 1) := spanTo_mono (by omega)
    rw [spanTo_9999] at hm
    omega
  have hstep : spanTo Y = spanTo (Y - 1) + daysInYear Y := by
    cases hYc : Y with
    | zero => omega
    | succ m =>
      show spanTo m + daysInYear (m + 1) = spanTo (m + 1 - 1) + daysInYear (m + 1)
      rw [Nat.succ_sub_one]
  have hYge : 1970 ≤ Y := by
    by_contra hc
    push_neg at hc
    have hm : spanTo Y ≤ spanTo 1969 := spanTo_mono (by omega)
    rw [spanTo_1969] at hm
    omega
  have hmd := monthFromDays_valid (isLeap Y) R
    (by have := (daysInYear_bounds Y).2; omega)
    (by rw [← daysInYear_eq]; exact hrem)
  have hciv : civilFromDays rd
      = (Y, (monthFromDays (isLeap Y) 11 1 R).1, (monthFromDays (isLeap Y) 11 1 R).2) := rfl
  rw [hciv]
  exact ⟨hYge, hYle, hmd.1, hmd.2.1, hmd.2.2.1, hmd.2.2.2⟩

theorem fromtimestampDate_ofNat (sn : Nat) (hhi : sn ≤ 253402300799) :
    fromtimestampDate (sn : Int) = some (civilFromDays (sn / 86400 + 719162)) := by
  have hfd : Int.fdiv (sn : Int) 86400 = ((sn / 86400 : Nat) : Int) := by
    exact_mod_cast (Int.ofNat_fdiv sn 86400).symm
  have hne : ¬(((sn / 86400 : Nat) : Int) + (epochDays : Int) < 0
      ∨ ((sn / 86400 : Nat) : Int) + (epochDays : Int) > (maxCivilDay : Int)) := by
    have h1 : sn / 86400 ≤ 2932896 := by omega
    simp only [epochDays, maxCivilDay]
    omega
  have htn : (((sn / 86400 : Nat) : Int) + (epochDays : Int)).toNat = sn / 86400 + 719162 := by
    simp only [epochDays]
    omega
  simp only [fromtimestampDate, hfd, hne, if_false, htn]

theorem numericDate_ok (n sn : Nat)
    (hsn : (if (n : Int) > 10000000000 then Int.fdiv (n : Int) 1000 else (n : Int)) = (sn : Int))
    (h1 : 1 ≤ sn) (h2 : sn ≤ 253402300799) :
    numericDate (n : Int) = .ok (formatDate (civilFromDays (sn / 86400 + 719162)).1
      (civilFromDays (sn / 86400 + 719162)).2.1 (civilFromDays (sn / 86400 + 719162)).2.2) := by
  have hover : ¬((sn : Int) > timeTMax ∨ (sn : Int) < -(timeTMax + 1)) := by
    simp only [timeTMax]
    omega
  simp only [numericDate, hsn, hover, if_false, fromtimestampDate_ofNat sn h2]

theorem normalize_date_int_pos (n : Nat) (h0 : 0 < n) :
    normalize_date (.int (n : Int)) = numericDate (n : Int) := by
  have : ((n : Int) != 0) = true := by
    simp only [bne_iff_ne, ne_eq]
    exact_mod_cast Nat.pos_iff_ne_zero.1 h0
  simp [normalize_date, PyVal.truthy, this]

theorem normalize_date_float_pos (n : Nat) (h0 : 0 < n) :
    normalize_date (.float (n : Int)) = numericDate (n : Int) := by
  have : ((n : Int) != 0) = true := by
    simp only [bne_iff_ne, ne_eq]
    exact_mod_cast Nat.pos_iff_ne_zero.1 h0
  simp [normalize_date, PyVal.truthy, this]

theorem numericDate_in_range (n : Nat) (h0 : 0 < n) (hb : n ≤ 253402300799999) :
    ∃ y m d, numericDate (n : Int) = .ok (formatDate y m d)
      ∧ validCivilDate y m d ∧ 1970 ≤ y ∧ y ≤ 9999 := by
  by_cases hms : (10000000000 : Int) < (n : Int)
  · have hmsn : 10000000000 < n := by exact_mod_cast hms
    have hsn : (if (n : Int) > 10000000000 then Int.fdiv (n : Int) 1000 else (n : Int))
        = ((n / 1000 : Nat) : Int) := by
      rw [if_pos hms]
      exact_mod_cast (Int.ofNat_fdiv n 1000).symm
    have h1 : 1 ≤ n / 1000 := by omega
    have h2 : n / 1000 ≤ 253402300799 := by omega
    have hciv := civilFromDays_valid (n / 1000 / 86400 + 719162) (by omega) (by
      have : n / 1000 / 86400 ≤ 2932896 := by omega
      omega)
    exact ⟨_, _, _, numericDate_ok n (n / 1000) hsn h1 h2, hciv.2.2, hciv.1, hciv.2.1⟩
  · have hmsn : n ≤ 10000000000 := by
      push_neg at hms
      exact_mod_cast hms
    have hsn : (if (n : Int) > 10000000000 then Int.fdiv (n : Int) 1000 else (n : Int))
        = ((n : Nat) : Int) := by
      rw [if_neg hms]
    have hciv := civilFromDays_valid (n / 86400 + 719162) (by omega) (by
      have : n / 86400 ≤ 115740 := by omega
      omega)
    exact ⟨_, _, _, numericDate_ok n n hsn h0 (by omega), hciv.2.2, hciv.1, hciv.2.1⟩

/-- C10: the falsy numeric inputs 0, 0.0 and False are treated as
absent and yield "Unknown" rather than the epoch date; every other
positive numeric input within the representable range (seconds up to
year 9999, or the equivalent milliseconds) yields a formatted date of a
valid calendar day between 1970 and 9999. -/
theorem normalize_date_numeric_spec :
    normalize_date (.int 0) = .ok "Unknown"
    ∧ normalize_date (.float 0) = .ok "Unknown"
    ∧ normalize_date (.bool false) = .ok "Unknown"
    ∧ (∀ n : Nat, 0 < n → n ≤ 253402300799999 →
        ∃ y m d, normalize_date (.int (n : Int)) = .ok (formatDate y m d)
          ∧ validCivilDate y m d ∧ 1970 ≤ y ∧ y ≤ 9999)
    ∧ (∀ n : Nat, 0 < n → n ≤ 253402300799999 →
        ∃ y m d, normalize_date (.float (n : Int)) = .ok (formatDate y m d)
          ∧ validCivilDate y m d ∧ 1970 ≤ y ∧ y ≤ 9999) := by
  refine ⟨by decide, by decide, by decide, ?_, ?_⟩
  · intro n h0 hb
    rw [normalize_date_int_pos n h0]
    exact numericDate_in_range n h0 hb
  · intro n h0 hb
    rw [normalize_date_float_pos n h0]
    exact numericDate_in_range n h0 hb

/-- C10 witness: the in-range parts at concrete seconds and
milliseconds inputs. -/
theorem normalize_date_numeric_spec_witness :
    (∃ y m d, normalize_date (.int ((1752000000 : Nat) : Int)) = .ok (formatDate y m d)
      ∧ validCivilDate y m d ∧ 1970 ≤ y ∧ y ≤ 9999)
    ∧ (∃ y m d, normalize_date (.float ((1752000000000 : Nat) : Int)) = .ok (formatDate y m d)
      ∧ validCivilDate y m d ∧ 1970 ≤ y ∧ y ≤ 9999) :=
  ⟨normalize_date_numeric_spec.2.2.2.1 1752000000 (by omega) (by omega),
   normalize_date_numeric_spec.2.2.2.2 1752000000000 (by omega) (by omega)⟩
